import Mathlib

/-!
Verification of the viscacha gopher browser's navigation/session engine.

The Go source is embedded shallowly: pure state manipulation becomes explicit
state passing, the external collaborators (the go-gopher protocol library,
tview widgets, the filesystem) are either modelled for the concrete input
shapes the program uses or passed in as parameters, and fallible operations
return `Option`.  Go slices of `*Page` pointers become Lean lists over an
abstract page type: a list element stands for the pointer, so in-place
mutation of a pointed-to page (scroll-offset write-back) does not change the
history sequence, exactly as in the source.
-/

namespace Viscacha

/-- ContentType enumeration from types.go. -/
inductive ContentType where
  | TextType
  | GopherDirectory
  | GopherQuery
  | ImageType
  | BinaryType
  | HTMLType
  | UnknownType
deriving DecidableEq, Repr

/-- Item types of the external go-gopher library (`gopher.ItemType`), the ones
named by types.go and handlers.go. -/
inductive GopherItemType where
  | FILE
  | DIRECTORY
  | INDEXSEARCH
  | GIF
  | IMAGE
  | PNG
  | DOSARCHIVE
  | BINARY
  | AUDIOTYPE
  | DOC
  | BINHEX
  | INFO
  | HTML
deriving DecidableEq, Repr

/-- The `Gopher_to_content_type` map from types.go.  A Go map lookup returns a
value plus an ok flag, modelled as `Option`.  `HTML` is commented out in the
source, and `INFO` is absent, so both are `none`. -/
def Gopher_to_content_type : GopherItemType → Option ContentType
  | .FILE => some .TextType
  | .DIRECTORY => some .GopherDirectory
  | .INDEXSEARCH => some .GopherQuery
  | .GIF => some .ImageType
  | .IMAGE => some .ImageType
  | .PNG => some .ImageType
  | .DOSARCHIVE => some .BinaryType
  | .BINARY => some .BinaryType
  | .AUDIOTYPE => some .BinaryType
  | .DOC => some .BinaryType
  | .BINHEX => some .BinaryType
  | .INFO => none
  | .HTML => none

/-- The `Link` struct from types.go.  The Go field `Type` is spelled `typ`
because `Type` is a Lean keyword. -/
structure Link where
  typ : ContentType
  Url : String
deriving DecidableEq, Repr

/-- The `Page` struct from types.go.  `Parent *Page` makes the type recursive,
so it is an inductive with accessor functions below; a nil pointer is `none`.
The Go field `Type` is spelled `typ` because `Type` is a Lean keyword. -/
inductive Page : Type where
  | mk (typ : ContentType) (Url : String) (Content : String) (Links : List Link)
       (ScrollOffset : Int) (Parent : Option Page) (LinkIndex : Int)

def Page.typ : Page → ContentType
  | .mk t _ _ _ _ _ _ => t

def Page.Url : Page → String
  | .mk _ u _ _ _ _ _ => u

def Page.Content : Page → String
  | .mk _ _ c _ _ _ _ => c

def Page.Links : Page → List Link
  | .mk _ _ _ l _ _ _ => l

def Page.ScrollOffset : Page → Int
  | .mk _ _ _ _ s _ _ => s

def Page.Parent : Page → Option Page
  | .mk _ _ _ _ _ p _ => p

def Page.LinkIndex : Page → Int
  | .mk _ _ _ _ _ _ i => i

/-- The `HistoryManager` struct from main.go.  It never inspects the pages it
stores, so the page type is a parameter: a value of `α` stands for one `*Page`
pointer.  `history_index` is a Go `int`; every operation that decreases it is
guarded by a positivity test in the source, so reachable values are the same
with `Nat` as with `Int`. -/
structure HistoryManager (α : Type) where
  page_history : List α
  history_index : Nat
deriving Repr

/-- The zero-value `HistoryManager{}` that `NewClient` starts from. -/
def HistoryManager.empty {α : Type} : HistoryManager α := ⟨[], 0⟩

/-- `HistoryManager.Navigate` from main.go: an empty history becomes `[page]`
with index 0, otherwise `append(page_history[:history_index+1], page)` keeps
the prefix through the cursor, drops the forward entries, and the cursor
advances by one. -/
def HistoryManager.Navigate {α : Type} (manager : HistoryManager α) (page : α) :
    HistoryManager α :=
  if manager.page_history.length = 0 then
    { page_history := [page], history_index := 0 }
  else
    { page_history := manager.page_history.take (manager.history_index + 1) ++ [page],
      history_index := manager.history_index + 1 }

/-- `HistoryManager.Back` from main.go.  The Go method mutates the manager and
returns `*Page` (nil on the first page); here it returns the page signal
together with the updated manager. -/
def HistoryManager.Back {α : Type} (manager : HistoryManager α) :
    Option α × HistoryManager α :=
  if manager.history_index > 0 then
    (manager.page_history.get? (manager.history_index - 1),
     { manager with history_index := manager.history_index - 1 })
  else
    (none, manager)

/-- `HistoryManager.Forward` from main.go, symmetric to `Back`, bounded by
`len(page_history)-1`. -/
def HistoryManager.Forward {α : Type} (manager : HistoryManager α) :
    Option α × HistoryManager α :=
  if manager.history_index < manager.page_history.length - 1 then
    (manager.page_history.get? (manager.history_index + 1),
     { manager with history_index := manager.history_index + 1 })
  else
    (none, manager)

/-- `HistoryManager.CurrentPage` from main.go: nil on an empty history,
otherwise the page at the cursor. -/
def HistoryManager.CurrentPage {α : Type} (manager : HistoryManager α) : Option α :=
  if manager.page_history.length = 0 then none
  else manager.page_history.get? manager.history_index

/-- One user-level history operation, used to quantify over all call
sequences on a `HistoryManager`. -/
inductive HOp (α : Type) where
  | navigate (page : α)
  | back
  | forward
  | current

/-- The state effect of one history operation: `Navigate`, `Back` and
`Forward` mutate the manager as in main.go; `CurrentPage` only reads. -/
def HistoryManager.step {α : Type} (manager : HistoryManager α) :
    HOp α → HistoryManager α
  | .navigate page => manager.Navigate page
  | .back => manager.Back.2
  | .forward => manager.Forward.2
  | .current => manager

/-- Run a sequence of history operations left to right. -/
def HistoryManager.run {α : Type} (manager : HistoryManager α) :
    List (HOp α) → HistoryManager α
  | [] => manager
  | op :: rest => (manager.step op).run rest

/-- The client-visible outcome of a navigation attempt, distinguishing the
fetch actually started (`goto`), the query overlay opened (`query`), and the
three non-fatal log messages the source can emit instead of navigating. -/
inductive NavOutcome where
  | goto (url : String)
  | query (link : Link)
  | errNoLink (link_num : Int)
  | errNoNextLink
  | errNoPrevLink
deriving DecidableEq, Repr

/-- `Client.FollowLink` from main.go, reduced to its navigation decision.
The guard is the source's `link_num > 0 && int(link_num) <= len(page.Links)`;
inside it `page.Links[link_num-1]` is a safe index.  A `GopherQuery` link
opens the query overlay (no immediate fetch); any other link fetches its URL;
an out-of-range index logs `No link #%d on the current page`. -/
def Client.FollowLink (page : Page) (link_num : Int) : NavOutcome :=
  if h : 0 < link_num ∧ link_num ≤ (page.Links.length : Int) then
    let link := page.Links.get ⟨(link_num - 1).toNat, by omega⟩
    if link.typ = ContentType.GopherQuery then NavOutcome.query link
    else NavOutcome.goto link.Url
  else
    NavOutcome.errNoLink link_num

/-- `Client.CommandGoNext` from main.go: with a parent page present and
`LinkIndex + 1` within the parent's link count, follow that link on the
parent; otherwise log `No next link in parent page to navigate to`. -/
def Client.CommandGoNext (cur_page : Page) : NavOutcome :=
  let next_index := cur_page.LinkIndex + 1
  match cur_page.Parent with
  | some parent_page =>
      if next_index ≤ (parent_page.Links.length : Int) then
        Client.FollowLink parent_page next_index
      else NavOutcome.errNoNextLink
  | none => NavOutcome.errNoNextLink

/-- `Client.CommandGoPrev` from main.go, verbatim: the source only calls
`FollowLink` when `prev_index < 0` (sic), and logs
`No previous link in parent page to navigate to` in every other case. -/
def Client.CommandGoPrev (cur_page : Page) : NavOutcome :=
  let prev_index := cur_page.LinkIndex - 1
  match cur_page.Parent with
  | some parent_page =>
      if prev_index < 0 then Client.FollowLink parent_page prev_index
      else NavOutcome.errNoPrevLink
  | none => NavOutcome.errNoPrevLink

/-- The client state that `GotoUrl` can affect: the history manager and the
page currently shown by the page view.  The page type stays abstract, one
value per `*Page` pointer. -/
structure ClientState (α : Type) where
  historyManager : HistoryManager α
  displayed : Option α

/-- `Client.GotoUrl` from main.go, as a state transformer on the fetch
result.  The fetch itself (`GopherHandler(url)`) is external to this step and
its `(page, success)` result is the argument.  On `!success` the source only
logs `Failed to get gopher url`; on success with a non-nil page it renders the
page, pushes it through `HistoryManager.Navigate` and clears the message line;
on success with a nil page (downloads) it does nothing.  The returned `Option
String` is the log message emitted, `none` when nothing is logged.
(`SaveScroll`, called first in the source, writes the scroll offset into the
current page through its pointer and touches neither the history sequence nor
the cursor nor the displayed page, so it has no effect on this state.) -/
def Client.GotoUrl {α : Type} (client : ClientState α) (fetched : Option α × Bool) :
    ClientState α × Option String :=
  match fetched with
  | (page, success) =>
    if success = false then
      (client, some "Failed to get gopher url")
    else
      match page with
      | some p =>
          ({ historyManager := client.historyManager.Navigate p, displayed := some p },
           none)
      | none => (client, none)

/-- The state effect of `Client.FollowLink`: a `goto` outcome runs `GotoUrl`
on the fetched result, a `query` outcome opens the overlay without fetching,
and the error outcomes only log. -/
def Client.FollowLinkStep {α : Type} (st : ClientState α)
    (fetch : String → Option α × Bool) (page : Page) (link_num : Int) :
    ClientState α × Option String :=
  match Client.FollowLink page link_num with
  | NavOutcome.goto u => Client.GotoUrl st (fetch u)
  | NavOutcome.query _ => (st, none)
  | NavOutcome.errNoLink n =>
      (st, some ("No link #" ++ toString n ++ " on the current page"))
  | NavOutcome.errNoNextLink => (st, none)
  | NavOutcome.errNoPrevLink => (st, none)

/-- Modelled from the Go standard library: `strings.Split` with a
one-character separator, on the character list.  The result is always
non-empty; splitting the empty string yields `[[]]`, as in Go. -/
def stringsSplitChar (sep : Char) : List Char → List (List Char)
  | [] => [[]]
  | c :: rest =>
      match stringsSplitChar sep rest with
      | [] => [[]]
      | g :: gs => if c = sep then [] :: g :: gs else (c :: g) :: gs

/-- Modelled from the Go standard library: `strings.Split(s, sep)` for the
one-character separators this program uses. -/
def stringsSplit (s : String) (sep : Char) : List String :=
  (stringsSplitChar sep s.data).map String.mk

/-- A parsed URL, the three fields of the Go standard library's `url.URL`
that this program reads. -/
structure URL where
  Scheme : String
  Host : String
  Path : String
deriving DecidableEq, Repr

/-- Modelled from the Go standard library: `url.Parse` restricted to the
`scheme://host/path` shape this program feeds it (no userinfo, query or
fragment, under which Go's parser yields exactly these scheme, host and path
components: the text before the first colon, the authority up to the next
slash, and the remainder). -/
def url.Parse (s : String) : Option URL :=
  let cs := s.data
  let scheme := cs.takeWhile (fun c => c ≠ ':')
  match cs.drop scheme.length with
  | ':' :: '/' :: '/' :: rest =>
      let host := rest.takeWhile (fun c => c ≠ '/')
      some ⟨String.mk scheme, String.mk host, String.mk (rest.drop host.length)⟩
  | _ => none

/-- `GetUpUrl` from main.go: split the parsed path on `/`; with at most two
split components (an empty or single-segment path) collapse to
`scheme://host`; otherwise keep `path[1 : len(path)-1]`, overwrite its first
component with `"1"` and rebuild the URL. -/
def GetUpUrl (url_str : String) : String :=
  match url.Parse url_str with
  | none => ""
  | some parsed_url =>
    let path := stringsSplit parsed_url.Path '/'
    if path.length ≤ 2 then
      parsed_url.Scheme ++ "://" ++ parsed_url.Host
    else
      let up_path := (path.drop 1).take (path.length - 2)
      let up_path := match up_path with
        | [] => []
        | _ :: rest => "1" :: rest
      parsed_url.Scheme ++ "://" ++ parsed_url.Host ++ "/"
        ++ String.intercalate "/" up_path

/-- One parsed directory entry of the external go-gopher library
(`gopher.Item`), the two fields the renderer reads.  The Go field `Type` is
spelled `typ` because `Type` is a Lean keyword. -/
structure GopherItem where
  typ : GopherItemType
  Description : String
deriving DecidableEq, Repr

/-- The external collaborators the renderer calls: the go-gopher line parser
`gopher.ParseItem` (an error is `none`), the library's `ItemType.String`
display label, and `tview.Escape`.  The renderer's properties hold for every
choice of these functions. -/
structure GopherLib where
  ParseItem : String → Option GopherItem
  TypeString : GopherItemType → String
  Escape : String → String

/-- Left-pad a decimal rendering to a field width, as Go's `%*d` verb does:
shorter numbers get leading spaces, longer numbers keep their full width. -/
def padLeft (w : Nat) (s : String) : String :=
  String.mk (List.replicate (w - s.length) ' ') ++ s

/-- The `n_link_digits` computation of `RenderGopherDirectory`:
`int(math.Max(math.Log10(float64(len(page.Links))), 0)) + 1`.  The
floating-point `Log10` is modelled exactly: for `nLinks ≥ 1` the truncated
maximum is `Nat.log 10 nLinks`, and `Log10(0) = -Inf` makes the maximum 0. -/
def n_link_digits (nLinks : Nat) : Nat :=
  if nLinks = 0 then 1 else Nat.log 10 nLinks + 1

/-- The `txt_color` switch of `RenderGopherDirectory` (pageview version with
the INDEXSEARCH case). -/
def txt_color : GopherItemType → String
  | .INFO => "[white]"
  | .FILE => "[white]"
  | .DIRECTORY => "[skyblue]"
  | .INDEXSEARCH => "[violet]"
  | _ => "[red]"

/-- The loop body of `PageView.RenderGopherDirectory` for one line of
`page.Content`: an unparseable line prints a bare newline; a non-INFO item
prints the `link_format` field `"[green]%s [%Nd][white] "` with the current
link counter and increments it; an INFO item prints `3+1+2+N+1` spaces; both
then print the color tag, the escaped description, and `"\n[white]"`.
Returns the text written and the updated counter. -/
def renderDirLine (lib : GopherLib) (n_digits : Nat) (line : String)
    (link_counter : Nat) : String × Nat :=
  match lib.ParseItem line with
  | none => ("\n", link_counter)
  | some item =>
    let numberField :=
      if item.typ ≠ GopherItemType.INFO then
        "[green]" ++ lib.TypeString item.typ ++ " ["
          ++ padLeft n_digits (toString link_counter) ++ "][white] "
      else
        String.mk (List.replicate (3 + 1 + 2 + n_digits + 1) ' ')
    let link_counter' :=
      if item.typ ≠ GopherItemType.INFO then link_counter + 1 else link_counter
    (numberField ++ txt_color item.typ ++ lib.Escape item.Description ++ "\n[white]",
     link_counter')

/-- The rendering loop of `PageView.RenderGopherDirectory`: one output chunk
per content line, threading the link counter left to right. -/
def renderDirLines (lib : GopherLib) (n_digits : Nat) :
    List String → Nat → List String
  | [], _ => []
  | line :: rest, link_counter =>
      let out := renderDirLine lib n_digits line link_counter
      out.1 :: renderDirLines lib n_digits rest out.2

/-- `PageView.RenderGopherDirectory` from pageview.go: split `page.Content`
on newlines, render each line with the counter starting at 1 and the field
width derived from `len(page.Links)`, and write the chunks in order. -/
def PageView.RenderGopherDirectory (lib : GopherLib) (page : Page) : String :=
  String.join
    (renderDirLines lib (n_link_digits page.Links.length)
      (stringsSplit page.Content '\n') 1)

/-- Whether a content line is rendered with a link number: it parses and its
item type is not INFO.  This is the renderer's own branch condition, factored
out to count link lines. -/
def isLinkLine (lib : GopherLib) (line : String) : Bool :=
  match lib.ParseItem line with
  | some item => item.typ ≠ GopherItemType.INFO
  | none => false

/-- Modelled from the Go standard library: string slicing `s[:j]`, which
panics (`none`) unless `0 ≤ j ≤ len(s)`. -/
def goStringSliceTo (s : String) (j : Int) : Option String :=
  if 0 ≤ j ∧ j ≤ (s.length : Int) then some (String.mk (s.data.take j.toNat))
  else none

/-- Modelled from the Go standard library: `strings.Repeat(s, n)`, which
panics (`none`) when `n` is negative. -/
def goRepeat (s : String) (n : Int) : Option String :=
  if 0 ≤ n then some (String.join (List.replicate n.toNat s)) else none

/-- Go's float-to-int conversion: truncation toward zero, on the exact
rational value. -/
def goTruncToInt (q : ℚ) : Int :=
  if 0 ≤ q then ⌊q⌋ else -⌊-q⌋

/-- `PageView.getPercentScroll` from pageview.go.  `height` and `row` come
from the text view's rect and scroll offset; `text` is the view's content.
`numLines` is the length of a `strings.Split` result, hence never zero.
Float arithmetic is modelled exactly over ℚ. -/
def PageView.getPercentScroll (height row : Int) (text : String) : ℚ :=
  let viewBottom := row + height
  let numLines := (stringsSplit text '\n').length
  let percentViewed := min 1 ((viewBottom : ℚ) / (numLines : ℚ))
  percentViewed * 100

/-- `PageView.UpdateStatus` from pageview.go, as a function of the status
line's width, the text view's height, scroll row and content, and the current
URL.  It writes `"%s%s %3d%%"`: the URL truncated to `width - 5` when longer,
space padding up to `width - 5`, and the truncated percentage.  The Go string
slice and `strings.Repeat` panic on negative bounds, so the result is `none`
exactly when the source would panic. -/
def PageView.UpdateStatus (width height row : Int) (text currentUrl : String) :
    Option String :=
  let pctString := PageView.getPercentScroll height row text
  let available_for_url := width - 5
  let truncated :=
    if (currentUrl.length : Int) > available_for_url then
      goStringSliceTo currentUrl available_for_url
    else some currentUrl
  match truncated with
  | none => none
  | some urlString =>
    match goRepeat " " (available_for_url - urlString.length) with
    | none => none
    | some padding =>
        some (urlString ++ padding ++ " "
          ++ padLeft 3 (toString (goTruncToInt pctString)) ++ "%")

/-- One raw directory item of the external go-gopher library as used by
`gopherItemToUrl` and `gopherMakeLinkMap`.  The Go field `Type` is spelled
`typ` because `Type` is a Lean keyword. -/
structure DirItem where
  typ : GopherItemType
  Host : String
  Port : Int
  Selector : String
deriving DecidableEq, Repr

/-- Modelled from the external go-gopher library: `string(item.Type)`, the
one-character selector string of each item type (`gopher.ItemType` is a byte
holding that character). -/
def GopherItemType.char : GopherItemType → String
  | .FILE => "0"
  | .DIRECTORY => "1"
  | .INDEXSEARCH => "7"
  | .GIF => "g"
  | .IMAGE => "I"
  | .PNG => "p"
  | .DOSARCHIVE => "5"
  | .BINARY => "9"
  | .AUDIOTYPE => "s"
  | .DOC => "d"
  | .BINHEX => "4"
  | .INFO => "i"
  | .HTML => "h"

/-- `gopherItemToUrl` from handlers.go:
`fmt.Sprintf("gopher://%s:%d/%s%s", item.Host, item.Port, string(item.Type), item.Selector)`. -/
def gopherItemToUrl (item : DirItem) : String :=
  "gopher://" ++ item.Host ++ ":" ++ toString item.Port ++ "/"
    ++ item.typ.char ++ item.Selector

/-- `gopherMakeLinkMap` from handlers.go: one `Link` per non-INFO item, in
order, with the content type from `Gopher_to_content_type` and `UnknownType`
for unmapped item types. -/
def gopherMakeLinkMap : List DirItem → List Link
  | [] => []
  | item :: rest =>
      if item.typ ≠ GopherItemType.INFO then
        { typ := (Gopher_to_content_type item.typ).getD ContentType.UnknownType,
          Url := gopherItemToUrl item } :: gopherMakeLinkMap rest
      else gopherMakeLinkMap rest

/-- The response of the external go-gopher library's `gopher.Get`, with the
results of the subsequent fallible reads the handler performs: `body` is what
`ioutil.ReadAll(res.Body)` returns (`none` on a read error), `dirToText` is
`res.Dir.ToText()` (`none` on an error), `Dir` holds the directory items. -/
structure GopherRes where
  typ : GopherItemType
  body : Option String
  dirToText : Option String
  Dir : List DirItem

/-- The outcomes of the filesystem calls in the handler's download branch:
whether `os.Create` and `io.Copy` succeed. -/
structure FileOps where
  createOk : Bool
  copyOk : Bool

/-- `GopherHandler` from handlers.go, as a function of the fetch result
(`none` models a `gopher.Get` error) and the filesystem outcomes.  Text pages
carry the body, directory pages carry the directory text and link map,
image/binary resources are downloaded and yield `(nil, true)`, and every
remaining mapped type falls through to a page with empty content; any failed
step yields `(nil, false)`. -/
def GopherHandler (_url : String) (getRes : Option GopherRes) (fileOps : FileOps) :
    Option Page × Bool :=
  match getRes with
  | none => (none, false)
  | some res =>
    match Gopher_to_content_type res.typ with
    | none => (none, false)
    | some content_type =>
      if content_type = ContentType.TextType then
        match res.body with
        | none => (none, false)
        | some body_txt => (some (Page.mk content_type _url body_txt [] 0 none 0), true)
      else if content_type = ContentType.GopherDirectory then
        match res.dirToText with
        | none => (none, false)
        | some dir_txt =>
            (some (Page.mk content_type _url dir_txt (gopherMakeLinkMap res.Dir) 0 none 0),
             true)
      else if content_type = ContentType.BinaryType
          ∨ content_type = ContentType.ImageType then
        match url.Parse _url with
        | none => (none, false)
        | some _ =>
            if fileOps.createOk = false then (none, false)
            else if fileOps.copyOk = false then (none, false)
            else (none, true)
      else
        (some (Page.mk content_type _url "" [] 0 none 0), true)

/-- The reachable-state invariant of the history manager: either the cursor
is a valid index of a non-empty sequence, or the manager is still in its zero
state. -/
def HistoryManager.StrongInv {α : Type} (m : HistoryManager α) : Prop :=
  m.history_index < m.page_history.length
    ∨ (m.page_history = [] ∧ m.history_index = 0)

/-- A concrete directory-line parser for evaluating the renderer: lines
starting with `0` are text files, lines starting with `i` are informational,
anything else fails to parse. -/
def sampleLib : GopherLib where
  ParseItem := fun line =>
    match line.data with
    | '0' :: rest => some ⟨GopherItemType.FILE, String.mk rest⟩
    | 'i' :: rest => some ⟨GopherItemType.INFO, String.mk rest⟩
    | _ => none
  TypeString := fun _ => "TXT"
  Escape := fun s => s

/-- A concrete directory page for evaluating the renderer: three parseable
lines, of which two are link lines, and two links. -/
def samplePage : Page :=
  Page.mk ContentType.GopherDirectory "gopher://host/1" "0alpha\niinfo\n0beta"
    [⟨ContentType.TextType, "gopher://host/0/alpha"⟩,
     ⟨ContentType.TextType, "gopher://host/0/beta"⟩] 0 none 0

/- ## Theorems -/

/-- Preservation of the reachable-state invariant by one history
operation. -/
theorem strongInv_step {α : Type} (m : HistoryManager α) (op : HOp α)
    (h : m.StrongInv) : (m.step op).StrongInv := by
  obtain ⟨l, i⟩ := m
  cases op with
  | navigate p =>
      by_cases hl : l.length = 0
      · simp [HistoryManager.step, HistoryManager.Navigate, hl,
          HistoryManager.StrongInv]
      · simp [HistoryManager.step, HistoryManager.Navigate, hl,
          HistoryManager.StrongInv, ← List.length_eq_zero] at h ⊢
        omega
  | back =>
      by_cases hi : i > 0
      · simp [HistoryManager.step, HistoryManager.Back, hi,
          HistoryManager.StrongInv, ← List.length_eq_zero] at h ⊢
        omega
      · simpa [HistoryManager.step, HistoryManager.Back, hi] using h
  | forward =>
      by_cases hi : i < l.length - 1
      · simp [HistoryManager.step, HistoryManager.Forward, hi,
          HistoryManager.StrongInv, ← List.length_eq_zero] at h ⊢
        omega
      · simpa [HistoryManager.step, HistoryManager.Forward, hi] using h
  | current => exact h

/-- Preservation of the reachable-state invariant by a whole operation
sequence. -/
theorem strongInv_run {α : Type} (ops : List (HOp α)) (m : HistoryManager α)
    (h : m.StrongInv) : (m.run ops).StrongInv := by
  induction ops generalizing m with
  | nil => exact h
  | cons op rest ih => exact ih _ (strongInv_step m op h)

/-- C1: `navigate(a); navigate(b); navigate(c); back(); back(); navigate(d)`
from an empty manager yields history `[a, d]` with the cursor on `d` and
`forward()` returning nil; and in general `Navigate` on a non-empty manager
with a valid cursor replaces everything after the cursor with the new page
and moves the cursor to the new last index. -/
theorem navigate_truncates_forward_history (α : Type) :
    (let m := (((((HistoryManager.empty (α := Nat)).Navigate 0).Navigate
        1).Navigate 2).Back.2.Back.2).Navigate 3
     m.page_history = [0, 3] ∧ m.CurrentPage = some 3 ∧ m.Forward.1 = none)
    ∧ ∀ (m : HistoryManager α) (p : α), m.page_history ≠ [] →
        m.history_index < m.page_history.length →
        (m.Navigate p).page_history
            = m.page_history.take (m.history_index + 1) ++ [p]
        ∧ (m.Navigate p).history_index
            = (m.Navigate p).page_history.length - 1 := by
  refine ⟨by decide, ?_⟩
  intro m p hne hidx
  have hlen : ¬m.page_history.length = 0 := by
    simpa [List.length_eq_zero] using hne
  refine ⟨by simp [HistoryManager.Navigate, hlen], ?_⟩
  simp only [HistoryManager.Navigate, hlen, if_false, List.length_append,
    List.length_take, List.length_cons, List.length_nil]
  omega

/-- Witness for C1's general part at a concrete two-page manager. -/
theorem navigate_truncates_forward_history_witness :
    ((⟨[5, 6], 0⟩ : HistoryManager Nat).page_history ≠ []
      ∧ (⟨[5, 6], 0⟩ : HistoryManager Nat).history_index
          < (⟨[5, 6], 0⟩ : HistoryManager Nat).page_history.length)
    ∧ ((⟨[5, 6], 0⟩ : HistoryManager Nat).Navigate 7).page_history
        = ([5, 6] : List Nat).take 1 ++ [7]
    ∧ ((⟨[5, 6], 0⟩ : HistoryManager Nat).Navigate 7).history_index
        = ((⟨[5, 6], 0⟩ : HistoryManager Nat).Navigate 7).page_history.length - 1 :=
  ⟨⟨by decide, by decide⟩,
   (navigate_truncates_forward_history Nat).2 ⟨[5, 6], 0⟩ 7 (by decide) (by decide)⟩

/-- C7: every Navigate/Back/Forward/CurrentPage sequence from the empty
manager keeps the cursor inside the sequence whenever the sequence is
non-empty, Back at the first page (cursor 0, including the empty manager)
returns nil and changes nothing, and Forward at the last page returns nil and
changes nothing. -/
theorem history_cursor_invariant (α : Type) :
    (∀ ops : List (HOp α),
        ((HistoryManager.empty (α := α)).run ops).page_history ≠ [] →
        ((HistoryManager.empty (α := α)).run ops).history_index
            < ((HistoryManager.empty (α := α)).run ops).page_history.length)
    ∧ (∀ m : HistoryManager α, m.history_index = 0 → m.Back = (none, m))
    ∧ (∀ m : HistoryManager α,
        m.history_index = m.page_history.length - 1 → m.Forward = (none, m)) := by
  refine ⟨?_, ?_, ?_⟩
  · intro ops hne
    have hinv : ((HistoryManager.empty (α := α)).run ops).StrongInv :=
      strongInv_run ops _ (Or.inr ⟨rfl, rfl⟩)
    rcases hinv with h | ⟨h, _⟩
    · exact h
    · exact absurd h hne
  · intro m h
    simp [HistoryManager.Back, h]
  · intro m h
    have : ¬m.history_index < m.page_history.length - 1 := by omega
    simp [HistoryManager.Forward, this]

/-- Witness for C7 at a concrete operation sequence and concrete boundary
managers. -/
theorem history_cursor_invariant_witness :
    (((HistoryManager.empty (α := Nat)).run
        [HOp.navigate 4, HOp.navigate 5, HOp.back]).page_history ≠ []
      ∧ ((HistoryManager.empty (α := Nat)).run
          [HOp.navigate 4, HOp.navigate 5, HOp.back]).history_index
            < ((HistoryManager.empty (α := Nat)).run
                [HOp.navigate 4, HOp.navigate 5, HOp.back]).page_history.length)
    ∧ (⟨[8, 9], 1⟩ : HistoryManager Nat).Forward = (none, ⟨[8, 9], 1⟩) :=
  ⟨⟨by decide,
    (history_cursor_invariant Nat).1 [HOp.navigate 4, HOp.navigate 5, HOp.back]
      (by decide)⟩,
   (history_cursor_invariant Nat).2.2 ⟨[8, 9], 1⟩ (by decide)⟩

/-- C2 (code bug): on a page whose parent has three links and whose
`LinkIndex` is 2, the `prev` command reports "No previous link" instead of
following link 1 on the parent: the source's guard `prev_index < 0` makes
`CommandGoPrev` unable to ever follow a link.  The same page's `next` command
does follow link 3, showing the intended symmetric behavior. -/
theorem commandGoPrev_never_follows_parent_link :
    Client.CommandGoPrev
        (Page.mk ContentType.TextType "gopher://host/0/b" "" [] 0
          (some (Page.mk ContentType.GopherDirectory "gopher://host/1" ""
            [⟨ContentType.TextType, "gopher://host/0/a"⟩,
             ⟨ContentType.TextType, "gopher://host/0/b"⟩,
             ⟨ContentType.TextType, "gopher://host/0/c"⟩] 0 none 0)) 2)
      = NavOutcome.errNoPrevLink
    ∧ Client.CommandGoNext
        (Page.mk ContentType.TextType "gopher://host/0/b" "" [] 0
          (some (Page.mk ContentType.GopherDirectory "gopher://host/1" ""
            [⟨ContentType.TextType, "gopher://host/0/a"⟩,
             ⟨ContentType.TextType, "gopher://host/0/b"⟩,
             ⟨ContentType.TextType, "gopher://host/0/c"⟩] 0 none 0)) 2)
      = NavOutcome.goto "gopher://host/0/c" := by
  constructor <;> rfl

/-- C3 counterexample: the claim's second example is wrong on the code —
`GetUpUrl("gopher://host/1/a")` does not collapse to `"gopher://host"`. -/
theorem getUpUrl_two_segment_counterexample :
    GetUpUrl "gopher://host/1/a" ≠ "gopher://host" := by decide

/-- C3 (amended): `GetUpUrl` drops the last path segment —
`"gopher://host/1/a/b"` goes to `"gopher://host/1/a"` and
`"gopher://host/1/a"` goes to `"gopher://host/1"`; only a URL whose path has
at most one segment (such as `"gopher://host/1"` or `"gopher://host"`)
collapses to scheme and host. -/
theorem getUpUrl_drops_last_segment :
    GetUpUrl "gopher://host/1/a/b" = "gopher://host/1/a"
    ∧ GetUpUrl "gopher://host/1/a" = "gopher://host/1"
    ∧ GetUpUrl "gopher://host/1" = "gopher://host"
    ∧ GetUpUrl "gopher://host" = "gopher://host" := by
  refine ⟨by decide, by decide, by decide, by decide⟩

/-- C4: when the fetch reports failure, `GotoUrl` only logs the non-fatal
"Failed to get gopher url": the history sequence, the cursor and the
displayed page are all unchanged, so `Navigate` was not called. -/
theorem gotoUrl_failure_leaves_state_unchanged {α : Type} (st : ClientState α)
    (page : Option α) :
    Client.GotoUrl st (page, false) = (st, some "Failed to get gopher url")
    ∧ (Client.GotoUrl st (page, false)).1.historyManager.page_history
        = st.historyManager.page_history
    ∧ (Client.GotoUrl st (page, false)).1.historyManager.history_index
        = st.historyManager.history_index
    ∧ (Client.GotoUrl st (page, false)).1.displayed = st.displayed := by
  refine ⟨rfl, rfl, rfl, rfl⟩

/-- C5: a 1-based link index outside `[1, len(page.Links)]` — zero, negative
or too large — makes `FollowLink` report "No link #N on the current page" and
leave the client state untouched, for every fetch behavior. -/
theorem followLink_out_of_range_no_action {α : Type} (st : ClientState α)
    (fetch : String → Option α × Bool) (page : Page) (link_num : Int)
    (h : link_num < 1 ∨ (page.Links.length : Int) < link_num) :
    Client.FollowLink page link_num = NavOutcome.errNoLink link_num
    ∧ Client.FollowLinkStep st fetch page link_num
        = (st, some ("No link #" ++ toString link_num ++ " on the current page")) := by
  have hcond : ¬(0 < link_num ∧ link_num ≤ (page.Links.length : Int)) := by omega
  refine ⟨?_, ?_⟩
  · simp [Client.FollowLink, hcond]
  · simp [Client.FollowLinkStep, Client.FollowLink, hcond]

/-- Witness for C5 at a page with one link and index 5. -/
theorem followLink_out_of_range_no_action_witness :
    ((5 : Int) < 1
      ∨ (((Page.mk ContentType.GopherDirectory "gopher://h/1" ""
            [⟨ContentType.TextType, "gopher://h/0/a"⟩] 0 none 0).Links.length : Int)
          < 5))
    ∧ Client.FollowLink
        (Page.mk ContentType.GopherDirectory "gopher://h/1" ""
          [⟨ContentType.TextType, "gopher://h/0/a"⟩] 0 none 0) 5
      = NavOutcome.errNoLink 5
    ∧ Client.FollowLinkStep (⟨HistoryManager.empty, none⟩ : ClientState Nat)
        (fun _ => (none, false))
        (Page.mk ContentType.GopherDirectory "gopher://h/1" ""
          [⟨ContentType.TextType, "gopher://h/0/a"⟩] 0 none 0) 5
      = (⟨HistoryManager.empty, none⟩,
         some ("No link #" ++ toString (5 : Int) ++ " on the current page")) :=
  ⟨by decide,
   (followLink_out_of_range_no_action (⟨HistoryManager.empty, none⟩ : ClientState Nat)
      (fun _ => (none, false))
      (Page.mk ContentType.GopherDirectory "gopher://h/1" ""
        [⟨ContentType.TextType, "gopher://h/0/a"⟩] 0 none 0) 5 (by decide)).1,
   (followLink_out_of_range_no_action (⟨HistoryManager.empty, none⟩ : ClientState Nat)
      (fun _ => (none, false))
      (Page.mk ContentType.GopherDirectory "gopher://h/1" ""
        [⟨ContentType.TextType, "gopher://h/0/a"⟩] 0 none 0) 5 (by decide)).2⟩

/-- C8 (code bug): `UpdateStatus` with a zero-width status line slices the
URL with the negative bound `width - 5 = -5` and panics (`none`), instead of
tolerating the unsized viewport; at a sized viewport it succeeds, and the
percentage is the truncated `min(1, (row + height) / numLines) * 100` of the
claim's formula. -/
theorem updateStatus_zero_width_panics :
    PageView.UpdateStatus 0 10 0 "" "" = none
    ∧ (PageView.UpdateStatus 20 2 0 "a\nb\nc" "gopher://x").isSome = true
    ∧ goTruncToInt (PageView.getPercentScroll 2 0 "a\nb\nc") = 66 := by
  refine ⟨by decide, by decide, ?_⟩
  have hlen : (stringsSplit "a\nb\nc" '\n').length = 3 := by decide
  simp only [PageView.getPercentScroll, goTruncToInt, hlen]
  norm_num [min_def]

/-- C10: a URL whose gopher item type resolves to an image or binary content
kind is downloaded: when the filesystem operations succeed `GopherHandler`
returns a nil page with success, and `GotoUrl` on that result changes neither
history nor the displayed page and logs nothing. -/
theorem gopherHandler_download_nil_page (_url : String) (res : GopherRes)
    (ct : ContentType) (st : ClientState Page)
    (hct : Gopher_to_content_type res.typ = some ct)
    (himg : ct = ContentType.ImageType ∨ ct = ContentType.BinaryType)
    (hp : (url.Parse _url).isSome = true) :
    GopherHandler _url (some res) ⟨true, true⟩ = (none, true)
    ∧ Client.GotoUrl st (GopherHandler _url (some res) ⟨true, true⟩) = (st, none) := by
  have h1 : GopherHandler _url (some res) ⟨true, true⟩ = (none, true) := by
    obtain ⟨u, hu⟩ := Option.isSome_iff_exists.mp hp
    rcases himg with h | h <;>
      simp [GopherHandler, hct, h, hu]
  refine ⟨h1, ?_⟩
  rw [h1]
  rfl

/-- Witness for C10 at a GIF item type and a concrete URL. -/
theorem gopherHandler_download_nil_page_witness :
    Gopher_to_content_type GopherItemType.GIF = some ContentType.ImageType
    ∧ (url.Parse "gopher://host/gcat.gif").isSome = true
    ∧ GopherHandler "gopher://host/gcat.gif"
        (some ⟨GopherItemType.GIF, none, none, []⟩) ⟨true, true⟩ = (none, true)
    ∧ Client.GotoUrl (⟨HistoryManager.empty, none⟩ : ClientState Page)
        (GopherHandler "gopher://host/gcat.gif"
          (some ⟨GopherItemType.GIF, none, none, []⟩) ⟨true, true⟩)
      = (⟨HistoryManager.empty, none⟩, none) :=
  ⟨rfl, by decide,
   (gopherHandler_download_nil_page "gopher://host/gcat.gif"
      ⟨GopherItemType.GIF, none, none, []⟩ ContentType.ImageType
      ⟨HistoryManager.empty, none⟩ rfl (Or.inl rfl) (by decide)).1,
   (gopherHandler_download_nil_page "gopher://host/gcat.gif"
      ⟨GopherItemType.GIF, none, none, []⟩ ContentType.ImageType
      ⟨HistoryManager.empty, none⟩ rfl (Or.inl rfl) (by decide)).2⟩

/-- The second component of `renderDirLine` is the counter, incremented
exactly on link lines. -/
theorem renderDirLine_snd (lib : GopherLib) (d : Nat) (line : String) (c : Nat) :
    (renderDirLine lib d line c).2 = c + (if isLinkLine lib line then 1 else 0) := by
  unfold renderDirLine isLinkLine
  cases h : lib.ParseItem line with
  | none => simp
  | some item =>
      by_cases ht : item.typ = GopherItemType.INFO <;> simp [ht]

/-- The rendering loop emits one chunk per content line. -/
theorem renderDirLines_length (lib : GopherLib) (d : Nat) :
    ∀ (lines : List String) (c : Nat),
      (renderDirLines lib d lines c).length = lines.length
  | [], _ => rfl
  | _ :: rest, c => by
      simp [renderDirLines, renderDirLines_length lib d rest]

/-- The chunk at position `i` is the line at position `i` rendered with the
counter advanced by the number of link lines before it. -/
theorem renderDirLines_get? (lib : GopherLib) (d : Nat) :
    ∀ (lines : List String) (c i : Nat),
      (renderDirLines lib d lines c).get? i
        = (lines.get? i).map (fun line =>
            (renderDirLine lib d line
              (c + List.countP (isLinkLine lib) (lines.take i))).1)
  | [], _, i => by simp [renderDirLines]
  | line :: rest, c, 0 => by simp [renderDirLines]
  | line :: rest, c, i + 1 => by
      have hstep : renderDirLines lib d (line :: rest) c
          = (renderDirLine lib d line c).1
            :: renderDirLines lib d rest (renderDirLine lib d line c).2 := by
        simp [renderDirLines]
      rw [hstep, List.get?_cons_succ, List.get?_cons_succ,
        renderDirLines_get? lib d rest _ i, renderDirLine_snd,
        List.take_succ_cons]
      simp [List.countP_cons, Nat.add_assoc, Nat.add_comm, Nat.add_left_comm]

/-- Counting hits in a prefix: a hit at position `i` pushes the count of the
prefix of length `i` strictly below the total count. -/
theorem countP_take_succ_le {α : Type} (p : α → Bool) :
    ∀ (l : List α) (i : Nat) (a : α), l.get? i = some a → p a = true →
      List.countP p (l.take i) + 1 ≤ List.countP p l
  | [], i, a, h, _ => by simp at h
  | x :: rest, 0, a, h, hp => by
      simp only [List.get?_cons_zero, Option.some.injEq] at h
      subst h
      simp [List.countP_cons, hp]
  | x :: rest, i + 1, a, h, hp => by
      rw [List.get?_cons_succ] at h
      have ih := countP_take_succ_le p rest i a h hp
      rw [List.take_succ_cons]
      simp only [List.countP_cons]
      omega

/-- C6: rendering a directory page whose link count matches its number of
link lines (the shape `GopherHandler` produces) numbers the non-informational
parseable lines `1..k` in source order — the line preceded by `j` link lines
gets number `j+1`, always within `[1, k]` — each number right-aligned in a
field of `max(1, floor(log10 k) + 1)` digits; informational entries get an
indent and no number; an unparseable line renders as a bare newline and the
rest of the page still renders, one chunk per line. -/
theorem renderGopherDirectory_link_numbering (lib : GopherLib) (page : Page)
    (hk : page.Links.length
        = List.countP (isLinkLine lib) (stringsSplit page.Content '\n')) :
    PageView.RenderGopherDirectory lib page
      = String.join (renderDirLines lib (n_link_digits page.Links.length)
          (stringsSplit page.Content '\n') 1)
    ∧ n_link_digits page.Links.length = max 1 (Nat.log 10 page.Links.length + 1)
    ∧ (renderDirLines lib (n_link_digits page.Links.length)
        (stringsSplit page.Content '\n') 1).length
        = (stringsSplit page.Content '\n').length
    ∧ ∀ i line, (stringsSplit page.Content '\n').get? i = some line →
        (lib.ParseItem line = none →
          (renderDirLines lib (n_link_digits page.Links.length)
            (stringsSplit page.Content '\n') 1).get? i = some "\n")
        ∧ (∀ item, lib.ParseItem line = some item →
            item.typ = GopherItemType.INFO →
            (renderDirLines lib (n_link_digits page.Links.length)
              (stringsSplit page.Content '\n') 1).get? i
              = some (String.mk
                  (List.replicate (3 + 1 + 2 + n_link_digits page.Links.length + 1) ' ')
                ++ "[white]" ++ lib.Escape item.Description ++ "\n[white]"))
        ∧ (∀ item, lib.ParseItem line = some item →
            item.typ ≠ GopherItemType.INFO →
            (renderDirLines lib (n_link_digits page.Links.length)
              (stringsSplit page.Content '\n') 1).get? i
              = some ("[green]" ++ lib.TypeString item.typ ++ " ["
                ++ padLeft (n_link_digits page.Links.length)
                    (toString (1 + List.countP (isLinkLine lib)
                      ((stringsSplit page.Content '\n').take i)))
                ++ "][white] " ++ txt_color item.typ
                ++ lib.Escape item.Description ++ "\n[white]")
            ∧ 1 ≤ 1 + List.countP (isLinkLine lib)
                  ((stringsSplit page.Content '\n').take i)
            ∧ 1 + List.countP (isLinkLine lib)
                  ((stringsSplit page.Content '\n').take i)
                ≤ page.Links.length) := by
  refine ⟨rfl, ?_, renderDirLines_length lib _ _ _, ?_⟩
  · unfold n_link_digits
    by_cases h : page.Links.length = 0
    · simp [h, Nat.log_zero_right]
    · simp only [h, if_false]
      omega
  · intro i line hline
    have hget := renderDirLines_get? lib (n_link_digits page.Links.length)
        (stringsSplit page.Content '\n') 1 i
    rw [hline, Option.map_some'] at hget
    refine ⟨?_, ?_, ?_⟩
    · intro hp
      rw [hget]
      simp [renderDirLine, hp]
    · intro item hp hinfo
      rw [hget]
      simp [renderDirLine, hp, hinfo, txt_color]
    · intro item hp hni
      have hlink : isLinkLine lib line = true := by simp [isLinkLine, hp, hni]
      refine ⟨?_, by omega, ?_⟩
      · rw [hget]
        simp [renderDirLine, hp, hni]
      · have hcount := countP_take_succ_le (isLinkLine lib)
          (stringsSplit page.Content '\n') i line hline hlink
        omega

/-- Witness for C6: on `samplePage` the third line `0beta` is the second link
line and is numbered 2. -/
theorem renderGopherDirectory_link_numbering_witness :
    (samplePage.Links.length
        = List.countP (isLinkLine sampleLib) (stringsSplit samplePage.Content '\n'))
    ∧ (stringsSplit samplePage.Content '\n').get? 2 = some "0beta"
    ∧ sampleLib.ParseItem "0beta" = some ⟨GopherItemType.FILE, "beta"⟩
    ∧ ((renderDirLines sampleLib (n_link_digits samplePage.Links.length)
          (stringsSplit samplePage.Content '\n') 1).get? 2
        = some ("[green]" ++ sampleLib.TypeString GopherItemType.FILE ++ " ["
            ++ padLeft (n_link_digits samplePage.Links.length)
                (toString (1 + List.countP (isLinkLine sampleLib)
                  ((stringsSplit samplePage.Content '\n').take 2)))
            ++ "][white] " ++ txt_color GopherItemType.FILE
            ++ sampleLib.Escape "beta" ++ "\n[white]")
        ∧ 1 ≤ 1 + List.countP (isLinkLine sampleLib)
              ((stringsSplit samplePage.Content '\n').take 2)
        ∧ 1 + List.countP (isLinkLine sampleLib)
              ((stringsSplit samplePage.Content '\n').take 2)
            ≤ samplePage.Links.length) :=
  ⟨by decide, by decide, by decide,
   ((renderGopherDirectory_link_numbering sampleLib samplePage (by decide)).2.2.2 2
      "0beta" (by decide)).2.2 ⟨GopherItemType.FILE, "beta"⟩ (by decide) (by decide)⟩

end Viscacha
